import Mathlib

/-!
Verification of the sampled-LP polynomial solver from `polynomial.ipynb`.

The notebook defines two functions:

  def pol_calc(c, x):
      return sum(c[i] * (x**i) for i in range(c.size))

  def solve_degree_n(n, n_sample=1e4, verbose=True):
      C = cp.Variable((n+1))
      x = np.random.uniform(-1,1,n_sample)
      pol_x = pol_calc(C, x)
      constraints = [px_i>=-1 for px_i in pol_x] + [px_i<=1 for px_i in pol_x]
      problem = cp.Problem(cp.Maximize(C[1]), constraints)
      problem.solve(solver=cp.GLPK)
      if verbose:
          print(problem.status)
          print(problem.value)
      return C.value

and at module load runs `np.random.seed(1234)`.

The embedding below models:
  * the pseudo-random source (`np.random`) as an explicit state of an
    arbitrary type `S` threaded through the computation, with a
    caller-supplied transition `draw : S → ℝ × S` (numpy's generator is an
    external library; only its deterministic state-passing interface matters
    to the notebook);
  * the LP solver (GLPK behind cvxpy) as a caller-supplied function
    `solver : Problem → SolverResult`; the semantic notions of feasibility,
    optimality and unboundedness of the constructed problem are defined here
    and used to state what a sound solver may answer;
  * Python exceptions as an `Except PyErr` result.  `np.random.uniform`
    raises `TypeError` when its `size` argument is a float (the notebook's
    default `n_sample=1e4` is the float literal `1e4`) and `ValueError` for a
    negative size; `cp.Variable(k)` with `k ≤ 0` does not yield a usable
    vector variable (a non-positive dimension is rejected, and a size-0
    variable would make `pol_calc` return the plain int `0`, which the
    constraint comprehension then fails to iterate) — both are modelled as a
    `valueError` at variable creation; `cp.Maximize(C[1])` raises
    `IndexError` when `C` has fewer than two components.
-/

/-- Python exception kinds that the notebook's code paths can raise. -/
inductive PyErr where
  | typeError
  | valueError
  | indexError
deriving DecidableEq, Repr

/-- A Python number as passed for `n_sample`: either an int or a float
(the default argument `1e4` is a float). Floats that reach `np.random.uniform`
as a `size` are a `TypeError`; only the exact rational value matters here. -/
inductive PyNum where
  | int (k : Int)
  | float (q : ℚ)
deriving DecidableEq, Repr

/-- The default of the `n_sample` parameter: the float literal `1e4`. -/
def default_n_sample : PyNum := PyNum.float 10000

/-- A Python value as returned by `solve_degree_n`: `C.value` is either a
numeric vector (ndarray) or `None`; tuples and scalars are included so that
the shape of the return value can be discussed. -/
inductive PyVal where
  | none
  | vec (c : List ℝ)
  | real (r : ℝ)
  | tuple (l : List PyVal)

/-- cvxpy solver status after `problem.solve`. -/
inductive PStatus where
  | optimal
  | infeasible
  | unbounded
deriving DecidableEq, Repr

/-- `problem.value` after `problem.solve` for a `Maximize` problem:
a finite optimum, `inf` (unbounded) or `-inf` (infeasible). -/
inductive PValue where
  | val (r : ℝ)
  | posInf
  | negInf

/-- What the external LP solver reports back through cvxpy. -/
inductive SolverResult where
  | optimal (c : List ℝ) (v : ℝ)
  | infeasible
  | unbounded

/-- One line printed by the `verbose` branch: `print(problem.status)` or
`print(problem.value)`. -/
inductive Out where
  | status (s : PStatus)
  | value (v : PValue)

/-- `pol_calc(c, x)`: `sum(c[i] * (x**i) for i in range(c.size))`. -/
def pol_calc (c : List ℝ) (x : ℝ) : ℝ :=
  ((List.range c.length).map (fun i => c.getD i 0 * x ^ i)).sum

/-- Draw `k` consecutive values from the generator, threading its state.
The generator hands the program IEEE float64 values; every such value is an
exact rational, so the sample type is `ℚ`. -/
def drawN {S : Type} (draw : S → ℚ × S) : Nat → S → List ℚ × S
  | 0, σ => ([], σ)
  | k + 1, σ =>
    let p := draw σ
    let q := drawN draw k p.2
    (p.1 :: q.1, q.2)

/-- `np.random.uniform(-1, 1, size)`: rejects a float `size` with `TypeError`
and a negative int `size` with `ValueError`; otherwise consumes `size` values
from the generator. -/
def np_uniform {S : Type} (draw : S → ℚ × S) (size : PyNum) (σ : S) :
    Except PyErr (List ℚ × S) :=
  match size with
  | PyNum.int k => if k < 0 then Except.error PyErr.valueError
      else Except.ok (drawN draw k.toNat σ)
  | PyNum.float _ => Except.error PyErr.typeError

/-- One sampled constraint: the polynomial's value at `point` bounded below
by -1 (`lo`) or above by 1 (`hi`). -/
inductive Constr where
  | lo (point : ℚ)
  | hi (point : ℚ)
deriving DecidableEq

/-- The linear program handed to the solver: the number of unknown
coefficients (`cp.Variable((n+1))`), the index of the maximized coefficient
(`cp.Maximize(C[1])`), and the sampled constraints. -/
structure Problem where
  nVars : Nat
  objIdx : Nat
  constrs : List Constr

/-- Construction phase of `solve_degree_n`: create the variable, sample the
points, build the constraint list `[px_i>=-1 ...] + [px_i<=1 ...]`, and form
the objective `Maximize(C[1])`. -/
def buildProblem {S : Type} (draw : S → ℚ × S) (n : Int) (n_sample : PyNum)
    (σ : S) : Except PyErr (Problem × S) :=
  if n + 1 ≤ 0 then Except.error PyErr.valueError
  else do
    let xsσ ← np_uniform draw n_sample σ
    let constrs := xsσ.1.map Constr.lo ++ xsσ.1.map Constr.hi
    if 1 < n + 1 then Except.ok (⟨(n + 1).toNat, 1, constrs⟩, xsσ.2)
    else Except.error PyErr.indexError

/-- `problem.status` as a function of what the solver reported. -/
def statusOf : SolverResult → PStatus
  | SolverResult.optimal _ _ => PStatus.optimal
  | SolverResult.infeasible => PStatus.infeasible
  | SolverResult.unbounded => PStatus.unbounded

/-- `problem.value` (for a `Maximize` problem) as a function of the report. -/
def valueOf : SolverResult → PValue
  | SolverResult.optimal _ v => PValue.val v
  | SolverResult.infeasible => PValue.negInf
  | SolverResult.unbounded => PValue.posInf

/-- `C.value` after the solve: the solved vector, or `None` when the solver
did not return an optimal point. -/
def retOf : SolverResult → PyVal
  | SolverResult.optimal c _ => PyVal.vec c
  | SolverResult.infeasible => PyVal.none
  | SolverResult.unbounded => PyVal.none

/-- `solve_degree_n(n, n_sample, verbose)`.  The result of a successful call
is the returned Python value (`C.value`), the lines printed by the `verbose`
branch, and the generator state after sampling. -/
def solve_degree_n {S : Type} (solver : Problem → SolverResult)
    (draw : S → ℚ × S) (n : Int) (n_sample : PyNum) (verbose : Bool)
    (σ : S) : Except PyErr ((PyVal × List Out) × S) := do
  let pσ ← buildProblem draw n n_sample σ
  let r := solver pσ.1
  let out := if verbose then [Out.status (statusOf r), Out.value (valueOf r)]
    else []
  Except.ok ((retOf r, out), pσ.2)

/-- A candidate coefficient vector satisfies one sampled constraint. -/
def csat (c : List ℝ) : Constr → Prop
  | Constr.lo x => -1 ≤ pol_calc c (x : ℝ)
  | Constr.hi x => pol_calc c (x : ℝ) ≤ 1

/-- Feasibility for the constructed LP: a vector of the right dimension
satisfying every sampled constraint. -/
def Feasible (p : Problem) (c : List ℝ) : Prop :=
  c.length = p.nVars ∧ ∀ con ∈ p.constrs, csat c con

/-- The objective `C[1]` evaluated at a coefficient vector. -/
def objVal (c : List ℝ) : ℝ := c.getD 1 0

/-- An optimal point of the constructed LP: feasible, and of maximal
objective among feasible points. -/
def IsOptimal (p : Problem) (c : List ℝ) : Prop :=
  Feasible p c ∧ ∀ d, Feasible p d → objVal d ≤ objVal c

/-- The constructed LP is unbounded: the objective exceeds every bound on the
feasible set. -/
def Unbounded (p : Problem) : Prop :=
  ∀ B : ℝ, ∃ c, Feasible p c ∧ B < objVal c

/-- The all-zero coefficient vector of a given dimension. -/
def zeroVec (k : Nat) : List ℝ := List.replicate k 0

/-- A fresh process run of the notebook: `np.random.seed(1234)` initialises
the generator state (via the library's seeding map `seedFn`), then
`solve_degree_n` is called once. -/
def processRun {S : Type} (solver : Problem → SolverResult)
    (draw : S → ℚ × S) (seedFn : Nat → S) (n : Int) (n_sample : PyNum)
    (verbose : Bool) : Except PyErr ((PyVal × List Out) × S) :=
  solve_degree_n solver draw n n_sample verbose (seedFn 1234)

/-- Two fresh process runs with the same seed and the same arguments. -/
def twoProcessRuns {S : Type} (solver : Problem → SolverResult)
    (draw : S → ℚ × S) (seedFn : Nat → S) (n : Int) (n_sample : PyNum)
    (verbose : Bool) :
    Except PyErr ((PyVal × List Out) × S) × Except PyErr ((PyVal × List Out) × S) :=
  (processRun solver draw seedFn n n_sample verbose,
   processRun solver draw seedFn n n_sample verbose)

/-- Two successive calls within one process: the module seeds once, the first
call advances the shared generator state, the second call starts from the
state the first call left behind. -/
def twoCallsInProcess {S : Type} (solver : Problem → SolverResult)
    (draw : S → ℚ × S) (seedFn : Nat → S) (n : Int) (n_sample : PyNum)
    (verbose : Bool) :
    Except PyErr ((PyVal × List Out) × S) × Option (Except PyErr ((PyVal × List Out) × S)) :=
  let r1 := solve_degree_n solver draw n n_sample verbose (seedFn 1234)
  match r1 with
  | Except.ok res => (r1, some (solve_degree_n solver draw n n_sample verbose res.2))
  | Except.error _ => (r1, none)

/-! ### Concrete instantiations used by witnesses and counterexamples -/

/-- A degenerate generator: always yields `0` and keeps its (unit) state. -/
def draw0 : Unit → ℚ × Unit := fun _ => ((0 : ℚ), ())

/-- The sample stream `1/2, -1/2, 1, -1, 0, 0, ...` read off a counter. -/
def streamC : Nat → ℚ := fun k => [(1 : ℚ) / 2, -(1 / 2), 1, -1].getD k 0

/-- A generator over a counter state emitting `streamC`. -/
def drawC : Nat → ℚ × Nat := fun k => (streamC k, k + 1)

/-- A counting generator: emits `k, k+1, k+2, ...` from state `k`. -/
def drawCount : Nat → ℚ × Nat := fun k => ((k : ℚ), k + 1)

/-- A stub solver that always reports the optimal point `[0, 1]`. -/
def solverOpt01 : Problem → SolverResult :=
  fun _ => SolverResult.optimal [0, 1] 1

/-- A stub solver that always reports unboundedness. -/
def solverUnb : Problem → SolverResult := fun _ => SolverResult.unbounded

/-! ### Three concrete sampled LPs and their optima

`probSmall` is built from the first two points of the stream
`1/2, -1/2, 1, -1` at degree 1; `probLarge` from all four points at degree 1;
`probCubic` from the same four points at degree 3. -/

def probSmall : Problem :=
  ⟨2, 1, [Constr.lo (1 / 2), Constr.lo (-(1 / 2)),
          Constr.hi (1 / 2), Constr.hi (-(1 / 2))]⟩

def probLarge : Problem :=
  ⟨2, 1, [Constr.lo (1 / 2), Constr.lo (-(1 / 2)), Constr.lo 1,
          Constr.lo (-1),
          Constr.hi (1 / 2), Constr.hi (-(1 / 2)), Constr.hi 1,
          Constr.hi (-1)]⟩

def probCubic : Problem := ⟨4, 1, probLarge.constrs⟩

/-- The sample sequence a call consumes when the generator is in state `σ`. -/
def callSamples {S : Type} (draw : S → ℚ × S) (m : Nat) (σ : S) : List ℚ :=
  (drawN draw m σ).1

/-! ### Basic lemmas about `pol_calc` -/

lemma list_sum_range_map (f : Nat → ℝ) (n : Nat) :
    ((List.range n).map f).sum = ∑ i ∈ Finset.range n, f i := by
  induction n with
  | zero => simp
  | succ k ih => simp [List.range_succ, Finset.sum_range_succ, ih]

lemma pol_calc_eq_sum (c : List ℝ) (x : ℝ) :
    pol_calc c x = ∑ i ∈ Finset.range c.length, c.getD i 0 * x ^ i :=
  list_sum_range_map _ _

lemma getD_zeroVec (k i : Nat) : (zeroVec k).getD i 0 = 0 := by
  rcases Nat.lt_or_ge i k with h | h
  · rw [List.getD_eq_getElem _ _ (by simpa [zeroVec] using h)]
    simp [zeroVec]
  · rw [List.getD_eq_default _ _ (by simpa [zeroVec] using h)]

lemma pol_calc_zeroVec (k : Nat) (x : ℝ) : pol_calc (zeroVec k) x = 0 := by
  rw [pol_calc_eq_sum]
  refine Finset.sum_eq_zero fun i _ => ?_
  rw [getD_zeroVec]
  ring

lemma pol_calc_append_zero (c : List ℝ) (x : ℝ) :
    pol_calc (c ++ [0]) x = pol_calc c x := by
  rw [pol_calc_eq_sum, pol_calc_eq_sum]
  have hlen : (c ++ [(0 : ℝ)]).length = c.length + 1 := by simp
  rw [hlen, Finset.sum_range_succ]
  have hlast : (c ++ [(0 : ℝ)]).getD c.length 0 = 0 := by
    rw [List.getD_eq_getElem _ _ (by simp)]
    simp
  rw [hlast]
  have hsame : ∀ i ∈ Finset.range c.length,
      (c ++ [(0 : ℝ)]).getD i 0 * x ^ i = c.getD i 0 * x ^ i := by
    intro i hi
    rw [Finset.mem_range] at hi
    rw [List.getD_append _ _ _ _ hi]
  rw [Finset.sum_congr rfl hsame]
  ring

lemma pol_calc_append_zeroVec (c : List ℝ) (k : Nat) (x : ℝ) :
    pol_calc (c ++ zeroVec k) x = pol_calc c x := by
  induction k generalizing c with
  | zero => simp [zeroVec]
  | succ j ih =>
    have hsplit : c ++ zeroVec (j + 1) = (c ++ [0]) ++ zeroVec j := by
      simp [zeroVec, List.replicate_succ]
    rw [hsplit, ih (c ++ [0]), pol_calc_append_zero]

lemma getD_zipWith_add (c d : List ℝ) (i : Nat) (h : d.length = c.length)
    (hi : i < c.length) :
    (List.zipWith (fun a b => a + b) c d).getD i 0 = c.getD i 0 + d.getD i 0 := by
  have hz : (List.zipWith (fun a b : ℝ => a + b) c d).length = c.length := by
    simp [List.length_zipWith, h]
  rw [List.getD_eq_getElem _ _ (by rw [hz]; exact hi),
    List.getD_eq_getElem _ _ hi, List.getD_eq_getElem _ _ (by rw [h]; exact hi)]
  simp

lemma pol_calc_add (c d : List ℝ) (x : ℝ) (h : d.length = c.length) :
    pol_calc (List.zipWith (fun a b => a + b) c d) x
      = pol_calc c x + pol_calc d x := by
  have hz : (List.zipWith (fun a b : ℝ => a + b) c d).length = c.length := by
    simp [List.length_zipWith, h]
  rw [pol_calc_eq_sum, pol_calc_eq_sum, pol_calc_eq_sum, hz, h,
    ← Finset.sum_add_distrib]
  refine Finset.sum_congr rfl fun i hi => ?_
  rw [Finset.mem_range] at hi
  rw [getD_zipWith_add c d i h hi]
  ring

lemma pol_calc_smul (c : List ℝ) (x t : ℝ) :
    pol_calc (c.map fun ci => t * ci) x = t * pol_calc c x := by
  have hm : (c.map fun ci => t * ci).length = c.length := by simp
  rw [pol_calc_eq_sum, pol_calc_eq_sum, hm, Finset.mul_sum]
  refine Finset.sum_congr rfl fun i hi => ?_
  rw [Finset.mem_range] at hi
  rw [List.getD_eq_getElem _ _ (by rw [hm]; exact hi),
    List.getD_eq_getElem _ _ hi]
  simp
  ring

/-- C3: for a coefficient vector `c` of length `n+1`, `pol_calc c x` is
`∑ i in 0..n, c_i * x^i`; mapped over a list of `m` sample points it yields
`m` values, and for a fixed point the evaluation is linear in the
coefficient vector (additive and homogeneous). -/
theorem C3_pol_calc_eval (c d : List ℝ) (x t : ℝ) (n : Nat)
    (hc : c.length = n + 1) (hd : d.length = n + 1) :
    pol_calc c x = ∑ i ∈ Finset.range (n + 1), c.getD i 0 * x ^ i ∧
    (∀ xs : List ℝ, (xs.map fun p => pol_calc c p).length = xs.length) ∧
    pol_calc (List.zipWith (fun a b => a + b) c d) x
      = pol_calc c x + pol_calc d x ∧
    pol_calc (c.map fun ci => t * ci) x = t * pol_calc c x := by
  refine ⟨?_, fun xs => by simp, ?_, pol_calc_smul c x t⟩
  · rw [pol_calc_eq_sum, hc]
  · exact pol_calc_add c d x (by rw [hc, hd])

/-- Witness for C3 at `c = [0,1]`, `d = [1,2]`, `x = 2`, `t = 3`, `n = 1`. -/
theorem C3_pol_calc_eval_witness :
    pol_calc [(0 : ℝ), 1] 2
        = ∑ i ∈ Finset.range 2, ([(0 : ℝ), 1]).getD i 0 * 2 ^ i ∧
    (∀ xs : List ℝ, (xs.map fun p => pol_calc [(0 : ℝ), 1] p).length
        = xs.length) ∧
    pol_calc (List.zipWith (fun a b => a + b) [(0 : ℝ), 1] [1, 2]) 2
        = pol_calc [(0 : ℝ), 1] 2 + pol_calc [1, 2] 2 ∧
    pol_calc (([(0 : ℝ), 1]).map fun ci => 3 * ci) 2
        = 3 * pol_calc [(0 : ℝ), 1] 2 :=
  C3_pol_calc_eval [0, 1] [1, 2] 2 3 1 (by simp) (by simp)

/-! ### Feasibility of the zero polynomial -/

lemma zero_feasible (p : Problem) : Feasible p (zeroVec p.nVars) := by
  constructor
  · simp [zeroVec]
  · intro con _
    cases con with
    | lo x => simp [csat, pol_calc_zeroVec]
    | hi x => simp [csat, pol_calc_zeroVec]

lemma objVal_zeroVec (k : Nat) : objVal (zeroVec k) = 0 := getD_zeroVec k 1

/-- C5: whatever degree and sample draw the LP is built from, the all-zero
coefficient vector satisfies every sampled constraint, so the LP is feasible,
any optimal point has objective at least `0`, and a solver that only reports
`infeasible` on genuinely infeasible problems can never report `infeasible`
here. -/
theorem C5_zero_always_feasible {S : Type} (draw : S → ℚ × S) (σ σ2 : S)
    (n : Int) (m : PyNum) (p : Problem)
    (_hbuild : buildProblem draw n m σ = Except.ok (p, σ2)) :
    Feasible p (zeroVec p.nVars) ∧
    (∃ c, Feasible p c) ∧
    (∀ c, IsOptimal p c → 0 ≤ objVal c) ∧
    (∀ solver : Problem → SolverResult,
      (solver p = SolverResult.infeasible → ∀ c, ¬ Feasible p c) →
      solver p ≠ SolverResult.infeasible) := by
  refine ⟨zero_feasible p, ⟨zeroVec p.nVars, zero_feasible p⟩, ?_, ?_⟩
  · intro c hc
    have h := hc.2 (zeroVec p.nVars) (zero_feasible p)
    rw [objVal_zeroVec] at h
    exact h
  · intro solver hsound hinf
    exact hsound hinf (zeroVec p.nVars) (zero_feasible p)

/-- Witness for C5: the LP built at degree `1` from two draws of the constant
generator. -/
theorem C5_zero_always_feasible_witness :
    Feasible ⟨2, 1, [Constr.lo 0, Constr.lo 0, Constr.hi 0, Constr.hi 0]⟩
      (zeroVec 2) ∧
    (∃ c, Feasible ⟨2, 1, [Constr.lo 0, Constr.lo 0, Constr.hi 0,
      Constr.hi 0]⟩ c) ∧
    (∀ c, IsOptimal ⟨2, 1, [Constr.lo 0, Constr.lo 0, Constr.hi 0,
      Constr.hi 0]⟩ c → 0 ≤ objVal c) ∧
    (∀ solver : Problem → SolverResult,
      (solver ⟨2, 1, [Constr.lo 0, Constr.lo 0, Constr.hi 0, Constr.hi 0]⟩
          = SolverResult.infeasible →
        ∀ c, ¬ Feasible ⟨2, 1, [Constr.lo 0, Constr.lo 0, Constr.hi 0,
          Constr.hi 0]⟩ c) →
      solver ⟨2, 1, [Constr.lo 0, Constr.lo 0, Constr.hi 0, Constr.hi 0]⟩
        ≠ SolverResult.infeasible) :=
  C5_zero_always_feasible draw0 () () 1 (PyNum.int 2)
    ⟨2, 1, [Constr.lo 0, Constr.lo 0, Constr.hi 0, Constr.hi 0]⟩ rfl

/-! ### Shape of the constructed linear program -/

lemma drawN_length {S : Type} (draw : S → ℚ × S) (k : Nat) (σ : S) :
    (drawN draw k σ).1.length = k := by
  induction k generalizing σ with
  | zero => rfl
  | succ j ih => simp [drawN, ih]

lemma buildProblem_ok {S : Type} (draw : S → ℚ × S) (σ : S) (n : Int)
    (m : Nat) (hn : 1 ≤ n) :
    buildProblem draw n (PyNum.int m) σ
      = Except.ok
          (⟨(n + 1).toNat, 1,
            (drawN draw m σ).1.map Constr.lo
              ++ (drawN draw m σ).1.map Constr.hi⟩,
           (drawN draw m σ).2) := by
  have h1 : ¬ (n + 1 ≤ 0) := by omega
  have h2 : ¬ ((m : Int) < 0) := by omega
  have h3 : (1 : Int) < n + 1 := by omega
  simp [buildProblem, np_uniform, h1, h2, h3]
  rfl

/-- C2 (amended): for every degree `n ≥ 1` and sample count `m ≥ 1` the
construction succeeds and the LP has exactly `n+1` unknown coefficients,
the objective index `1` (maximize `c_1`), and exactly `2*m` constraints — a
lower bound `-1` and an upper bound `1` on the sampled evaluation at each of
the `m` drawn points — independently of the degree.  (At `n = 0` the
construction itself fails; see the counterexample.) -/
theorem C2_problem_shape {S : Type} (draw : S → ℚ × S) (σ : S) (n : Int)
    (m : Nat) (hn : 1 ≤ n) (_hm : 1 ≤ m) :
    ∃ (p : Problem) (σ2 : S) (xs : List ℚ),
      buildProblem draw n (PyNum.int m) σ = Except.ok (p, σ2) ∧
      p.nVars = (n + 1).toNat ∧
      p.objIdx = 1 ∧
      xs.length = m ∧
      p.constrs = xs.map Constr.lo ++ xs.map Constr.hi ∧
      p.constrs.length = 2 * m ∧
      (∀ c : List ℝ, Feasible p c ↔
        c.length = (n + 1).toNat ∧
        ∀ x ∈ xs, -1 ≤ pol_calc c (x : ℝ) ∧ pol_calc c (x : ℝ) ≤ 1) := by
  refine ⟨_, _, (drawN draw m σ).1, buildProblem_ok draw σ n m hn, rfl, rfl,
    drawN_length draw m σ, rfl, ?_, ?_⟩
  · simp [drawN_length]
    omega
  · intro c
    constructor
    · rintro ⟨hlen, hcon⟩
      refine ⟨hlen, fun x hx => ⟨?_, ?_⟩⟩
      · exact hcon (Constr.lo x)
          (List.mem_append_left _ (List.mem_map_of_mem Constr.lo hx))
      · exact hcon (Constr.hi x)
          (List.mem_append_right _ (List.mem_map_of_mem Constr.hi hx))
    · rintro ⟨hlen, hx⟩
      refine ⟨hlen, fun con hcon => ?_⟩
      simp at hcon
      rcases hcon with ⟨x, hxmem, rfl⟩ | ⟨x, hxmem, rfl⟩
      · exact (hx x hxmem).1
      · exact (hx x hxmem).2

/-- Witness for C2 at degree `1`, two samples of the constant generator. -/
theorem C2_problem_shape_witness :
    ∃ (p : Problem) (σ2 : Unit) (xs : List ℚ),
      buildProblem draw0 1 (PyNum.int 2) () = Except.ok (p, σ2) ∧
      p.nVars = ((1 : Int) + 1).toNat ∧
      p.objIdx = 1 ∧
      xs.length = 2 ∧
      p.constrs = xs.map Constr.lo ++ xs.map Constr.hi ∧
      p.constrs.length = 2 * 2 ∧
      (∀ c : List ℝ, Feasible p c ↔
        c.length = ((1 : Int) + 1).toNat ∧
        ∀ x ∈ xs, -1 ≤ pol_calc c (x : ℝ) ∧ pol_calc c (x : ℝ) ≤ 1) :=
  C2_problem_shape draw0 () 1 2 (by omega) (by omega)

/-- C2 fails as stated at degree `0`: forming the objective `Maximize(C[1])`
indexes past the end of the one-component variable, so no linear program is
constructed at all — the call raises `IndexError` instead. -/
theorem C2_counterexample :
    buildProblem draw0 0 (PyNum.int 5) () = Except.error PyErr.indexError ∧
    ¬ ∃ (p : Problem) (σ2 : Unit),
        buildProblem draw0 0 (PyNum.int 5) () = Except.ok (p, σ2) := by
  constructor
  · rfl
  · rintro ⟨p, σ2, h⟩
    rw [show buildProblem draw0 0 (PyNum.int 5) ()
        = Except.error PyErr.indexError from rfl] at h
    exact Except.noConfusion h

/-! ### Shape of the value returned by `solve_degree_n` -/

/-- C1 (amended): a successful call returns only `C.value` — the solved
coefficient vector when the solver reports an optimal point and `None` when
it reports infeasible or unbounded; the solver status and achieved objective
are not part of the return value, they are printed (in that order) exactly
when `verbose` is set. -/
theorem C1_return_shape {S : Type} (solver : Problem → SolverResult)
    (draw : S → ℚ × S) (n : Int) (m : PyNum) (verbose : Bool) (σ σ2 : S)
    (ret : PyVal) (out : List Out)
    (h : solve_degree_n solver draw n m verbose σ
      = Except.ok ((ret, out), σ2)) :
    ((∃ cs : List ℝ, ret = PyVal.vec cs) ∨ ret = PyVal.none) ∧
    (∀ l : List PyVal, ret ≠ PyVal.tuple l) ∧
    (verbose = false → out = []) ∧
    (verbose = true →
      ∃ (st : PStatus) (v : PValue), out = [Out.status st, Out.value v]) := by
  rw [solve_degree_n] at h
  cases hb : buildProblem draw n m σ with
  | error e => rw [hb] at h; exact Except.noConfusion h
  | ok pσ =>
    rw [hb] at h
    have h2 : ((retOf (solver pσ.1),
        if verbose then [Out.status (statusOf (solver pσ.1)),
          Out.value (valueOf (solver pσ.1))] else []), pσ.2)
        = ((ret, out), σ2) := Except.ok.inj h
    have hret : retOf (solver pσ.1) = ret := by
      have := congrArg (fun z => z.1.1) h2
      simpa using this
    have hout : (if verbose then [Out.status (statusOf (solver pσ.1)),
        Out.value (valueOf (solver pσ.1))] else []) = out := by
      have := congrArg (fun z => z.1.2) h2
      simpa using this
    refine ⟨?_, ?_, ?_, ?_⟩
    · rw [← hret]
      cases solver pσ.1 with
      | optimal c v => exact Or.inl ⟨c, rfl⟩
      | infeasible => exact Or.inr rfl
      | unbounded => exact Or.inr rfl
    · intro l hl
      rw [← hret] at hl
      cases hsr : solver pσ.1 <;> rw [hsr] at hl <;>
        exact PyVal.noConfusion (hl : retOf _ = _)
    · intro hv; rw [← hout, hv]; rfl
    · intro hv
      exact ⟨statusOf (solver pσ.1), valueOf (solver pσ.1),
        by rw [← hout, hv]; rfl⟩

/-- Witness for C1 (amended): degree `1`, two samples of the constant
generator, the stub solver reporting `[0, 1]`, verbose on. -/
theorem C1_return_shape_witness :
    ((∃ cs : List ℝ, PyVal.vec ([0, 1] : List ℝ) = PyVal.vec cs) ∨
      PyVal.vec ([0, 1] : List ℝ) = PyVal.none) ∧
    (∀ l : List PyVal, PyVal.vec ([0, 1] : List ℝ) ≠ PyVal.tuple l) ∧
    (true = false →
      ([Out.status PStatus.optimal, Out.value (PValue.val 1)] : List Out)
        = []) ∧
    (true = true →
      ∃ (st : PStatus) (v : PValue),
        ([Out.status PStatus.optimal, Out.value (PValue.val 1)] : List Out)
          = [Out.status st, Out.value v]) :=
  C1_return_shape solverOpt01 draw0 1 (PyNum.int 2) true () ()
    (PyVal.vec [0, 1]) [Out.status PStatus.optimal, Out.value (PValue.val 1)]
    rfl

/-- C1 fails as stated: at degree `1` with two samples the call returns the
bare coefficient vector (`C.value`), not a triple of vector, status and
objective value. -/
theorem C1_counterexample :
    (solve_degree_n solverOpt01 draw0 1 (PyNum.int 2) true ()).map
        (fun r => r.1.1) = Except.ok (PyVal.vec [0, 1]) ∧
    ¬ ∃ (cv st ov : PyVal),
      (solve_degree_n solverOpt01 draw0 1 (PyNum.int 2) true ()).map
          (fun r => r.1.1) = Except.ok (PyVal.tuple [cv, st, ov]) := by
  constructor
  · rfl
  · rintro ⟨cv, st, ov, h⟩
    rw [show (solve_degree_n solverOpt01 draw0 1 (PyNum.int 2) true ()).map
        (fun r => r.1.1) = Except.ok (PyVal.vec [0, 1]) from rfl] at h
    exact PyVal.noConfusion (Except.ok.inj h)

/-! ### The default sample count and malformed inputs -/

/-- C4: the declared default of `n_sample` is the float literal `1e4`, and
`np.random.uniform` rejects a float `size` with a `TypeError`, so the call
relying on the default raises instead of drawing 10,000 points — here
evaluated at degree `1`, and already at the sampling step itself. -/
theorem C4_default_call_raises :
    default_n_sample = PyNum.float 10000 ∧
    np_uniform draw0 default_n_sample () = Except.error PyErr.typeError ∧
    solve_degree_n solverOpt01 draw0 1 default_n_sample true ()
      = Except.error PyErr.typeError :=
  ⟨rfl, rfl, rfl⟩

/-- C9 fails as stated for a zero sample count: the call at degree `1` with
`n_sample = 0` raises nothing — it builds an LP with an empty constraint
list (a genuinely unbounded problem) and returns `None` with the solver's
`unbounded` status printed. -/
theorem C9_counterexample :
    buildProblem draw0 1 (PyNum.int 0) () = Except.ok (⟨2, 1, []⟩, ()) ∧
    Unbounded ⟨2, 1, []⟩ ∧
    solve_degree_n solverUnb draw0 1 (PyNum.int 0) true ()
      = Except.ok ((PyVal.none,
          [Out.status PStatus.unbounded, Out.value PValue.posInf]), ()) := by
  refine ⟨rfl, ?_, rfl⟩
  intro B
  refine ⟨[0, B + 1], ⟨rfl, ?_⟩, ?_⟩
  · intro con hcon
    exact absurd hcon (List.not_mem_nil con)
  · have : objVal [0, B + 1] = B + 1 := rfl
    rw [this]
    linarith

/-- C9 (amended): a negative degree does make the call raise an exception
before anything is solved, but a zero sample count does not fail fast: the
call completes normally on the constraint-free LP. -/
theorem C9_malformed_inputs {S : Type} (solver : Problem → SolverResult)
    (draw : S → ℚ × S) (σ : S) (n1 n2 : Int) (m : PyNum) (verbose : Bool)
    (h1 : n1 < 0) (h2 : 1 ≤ n2) :
    (∃ e, solve_degree_n solver draw n1 m verbose σ = Except.error e) ∧
    (∃ res, solve_degree_n solver draw n2 (PyNum.int 0) verbose σ
      = Except.ok res) := by
  constructor
  · refine ⟨PyErr.valueError, ?_⟩
    have hb : buildProblem draw n1 m σ = Except.error PyErr.valueError := by
      rw [buildProblem, if_pos (by omega)]
    rw [solve_degree_n, hb]
    rfl
  · have hb := buildProblem_ok draw σ n2 0 h2
    simp only [Nat.cast_zero] at hb
    refine ⟨((retOf (solver ⟨(n2 + 1).toNat, 1, []⟩),
      if verbose then
        [Out.status (statusOf (solver ⟨(n2 + 1).toNat, 1, []⟩)),
          Out.value (valueOf (solver ⟨(n2 + 1).toNat, 1, []⟩))]
      else []), σ), ?_⟩
    rw [solve_degree_n, hb]
    rfl

/-- Witness for C9 (amended) at degrees `-3` and `1`. -/
theorem C9_malformed_inputs_witness :
    (∃ e, solve_degree_n solverUnb draw0 (-3) (PyNum.int 7) true ()
      = Except.error e) ∧
    (∃ res, solve_degree_n solverUnb draw0 1 (PyNum.int 0) true ()
      = Except.ok res) :=
  C9_malformed_inputs solverUnb draw0 () (-3) 1 (PyNum.int 7) true
    (by omega) (by omega)

/-! ### Splitting the sample stream and evaluating small polynomials -/

lemma drawN_add {S : Type} (draw : S → ℚ × S) (a b : Nat) (σ : S) :
    drawN draw (a + b) σ
      = ((drawN draw a σ).1 ++ (drawN draw b (drawN draw a σ).2).1,
         (drawN draw b (drawN draw a σ).2).2) := by
  induction a generalizing σ with
  | zero => simp [drawN]
  | succ j ih =>
    rw [Nat.succ_add]
    simp [drawN, ih]

lemma drawN_prefix_mem {S : Type} (draw : S → ℚ × S) (m1 m2 : Nat) (σ : S)
    (hm : m1 ≤ m2) (x : ℚ) (hx : x ∈ (drawN draw m1 σ).1) :
    x ∈ (drawN draw m2 σ).1 := by
  rw [← Nat.add_sub_cancel' hm, drawN_add]
  exact List.mem_append_left _ hx

lemma pol_calc_pair (a b x : ℝ) : pol_calc [a, b] x = a + b * x := by
  simp [pol_calc, List.range_succ, List.getD]

lemma pol_calc_quad (a b u v x : ℝ) :
    pol_calc [a, b, u, v] x = a + b * x + u * x ^ 2 + v * x ^ 3 := by
  simp [pol_calc, List.range_succ, List.getD]
  ring

lemma optSmall : IsOptimal probSmall [(0 : ℝ), 2] := by
  constructor
  · refine ⟨rfl, ?_⟩
    intro con hcon
    simp [probSmall] at hcon
    rcases hcon with rfl | rfl | rfl | rfl <;>
      · simp only [csat, pol_calc_pair]
        push_cast
        norm_num
  · intro d hd
    obtain ⟨a, b, rfl⟩ := List.length_eq_two.mp hd.1
    have h1 := hd.2 (Constr.hi (1 / 2)) (by simp [probSmall])
    have h2 := hd.2 (Constr.lo (-(1 / 2))) (by simp [probSmall])
    simp only [csat, pol_calc_pair] at h1 h2
    push_cast at h1 h2
    show objVal [a, b] ≤ objVal [(0 : ℝ), 2]
    have ha : objVal [a, b] = b := rfl
    have hb : objVal [(0 : ℝ), 2] = 2 := rfl
    rw [ha, hb]
    linarith

lemma optLarge : IsOptimal probLarge [(0 : ℝ), 1] := by
  constructor
  · refine ⟨rfl, ?_⟩
    intro con hcon
    simp [probLarge] at hcon
    rcases hcon with rfl | rfl | rfl | rfl | rfl | rfl | rfl | rfl <;>
      · simp only [csat, pol_calc_pair]
        push_cast
        norm_num
  · intro d hd
    obtain ⟨a, b, rfl⟩ := List.length_eq_two.mp hd.1
    have h1 := hd.2 (Constr.hi 1) (by simp [probLarge])
    have h2 := hd.2 (Constr.lo (-1)) (by simp [probLarge])
    simp only [csat, pol_calc_pair] at h1 h2
    push_cast at h1 h2
    have ha : objVal [a, b] = b := rfl
    have hb : objVal [(0 : ℝ), 1] = 1 := rfl
    rw [ha, hb]
    linarith

lemma optCubic : IsOptimal probCubic [(0 : ℝ), 3, 0, -4] := by
  constructor
  · refine ⟨rfl, ?_⟩
    intro con hcon
    simp [probCubic, probLarge] at hcon
    rcases hcon with rfl | rfl | rfl | rfl | rfl | rfl | rfl | rfl <;>
      · simp only [csat, pol_calc_quad]
        push_cast
        norm_num
  · intro d hd
    have hlen : d.length = 4 := hd.1
    rcases d with _ | ⟨a, d⟩
    · simp at hlen
    have hlen3 : d.length = 3 := by simpa using hlen
    obtain ⟨b, u, v, rfl⟩ := List.length_eq_three.mp hlen3
    have h1 := hd.2 (Constr.hi (1 / 2)) (by simp [probCubic, probLarge])
    have h2 := hd.2 (Constr.lo (-(1 / 2))) (by simp [probCubic, probLarge])
    have h3 := hd.2 (Constr.lo 1) (by simp [probCubic, probLarge])
    have h4 := hd.2 (Constr.hi (-1)) (by simp [probCubic, probLarge])
    simp only [csat, pol_calc_quad] at h1 h2 h3 h4
    push_cast at h1 h2 h3 h4
    norm_num at h1 h2 h3 h4
    have ha : objVal [a, b, u, v] = b := rfl
    have hb : objVal [(0 : ℝ), 3, 0, -4] = 3 := rfl
    rw [ha, hb]
    linarith

/-! ### Monotonicity of the achieved objective -/

lemma feasible_of_subset (p q : Problem) (c : List ℝ) (hn : p.nVars = q.nVars)
    (hsub : ∀ con ∈ p.constrs, con ∈ q.constrs) (h : Feasible q c) :
    Feasible p c :=
  ⟨h.1.trans hn.symm, fun con hcon => h.2 con (hsub con hcon)⟩

/-- C6 (amended): for a fixed degree, growing the sample count from the same
generator state can only tighten the LP — the smaller run's constraints are a
subset of the larger run's because the shorter sample list is a prefix of the
longer one — so the achieved objective is monotone NON-INCREASING in the
sample count: with `m1 ≤ m2`, the optimum over `m2` samples is at most the
optimum over `m1` samples. -/
theorem C6_sample_monotonicity {S : Type} (draw : S → ℚ × S) (σ : S)
    (n : Int) (m1 m2 : Nat) (p1 p2 : Problem) (σ1 σ2 : S) (c1 c2 : List ℝ)
    (hn : 1 ≤ n) (hm : m1 ≤ m2)
    (hb1 : buildProblem draw n (PyNum.int m1) σ = Except.ok (p1, σ1))
    (hb2 : buildProblem draw n (PyNum.int m2) σ = Except.ok (p2, σ2))
    (ho1 : IsOptimal p1 c1) (ho2 : IsOptimal p2 c2) :
    objVal c2 ≤ objVal c1 := by
  rw [buildProblem_ok draw σ n m1 hn] at hb1
  rw [buildProblem_ok draw σ n m2 hn] at hb2
  simp only [Except.ok.injEq, Prod.mk.injEq] at hb1 hb2
  obtain ⟨hp1, -⟩ := hb1
  obtain ⟨hp2, -⟩ := hb2
  subst hp1
  subst hp2
  apply ho1.2
  refine feasible_of_subset _
    ⟨(n + 1).toNat, 1, (drawN draw m2 σ).1.map Constr.lo
      ++ (drawN draw m2 σ).1.map Constr.hi⟩ c2 rfl ?_ ho2.1
  intro con hcon
  simp only [List.mem_append, List.mem_map] at hcon ⊢
  rcases hcon with ⟨x, hx, rfl⟩ | ⟨x, hx, rfl⟩
  · exact Or.inl ⟨x, drawN_prefix_mem draw m1 m2 σ hm x hx, rfl⟩
  · exact Or.inr ⟨x, drawN_prefix_mem draw m1 m2 σ hm x hx, rfl⟩

/-- C6 fails as stated: at degree `1`, growing the sample count from `2` to
`4` (with the generator replayed from the same state, as a rerun of the
seeded notebook would) STRICTLY DECREASES the achieved objective, from `2`
to `1`. -/
theorem C6_counterexample :
    (2 : Nat) ≤ 4 ∧
    buildProblem drawC 1 (PyNum.int 2) 0 = Except.ok (probSmall, 2) ∧
    buildProblem drawC 1 (PyNum.int 4) 0 = Except.ok (probLarge, 4) ∧
    IsOptimal probSmall [(0 : ℝ), 2] ∧
    IsOptimal probLarge [(0 : ℝ), 1] ∧
    objVal [(0 : ℝ), 1] < objVal [(0 : ℝ), 2] := by
  refine ⟨by omega, rfl, rfl, optSmall, optLarge, ?_⟩
  show (1 : ℝ) < 2
  norm_num

/-- Witness for C6 (amended): the concrete runs of the counterexample, in
the inequality's corrected direction. -/
theorem C6_sample_monotonicity_witness :
    objVal [(0 : ℝ), 1] ≤ objVal [(0 : ℝ), 2] :=
  C6_sample_monotonicity drawC 0 1 2 4 probSmall probLarge 2 4 [0, 2] [0, 1]
    (by omega) (by omega) rfl rfl optSmall optLarge

/-- C7: with the same sample draw, raising the degree from `n` to `n + 2`
cannot decrease the achieved objective: a degree-`n` optimum padded with two
zero coefficients is feasible for the degree-`n+2` program and has the same
objective value. -/
theorem C7_degree_monotonicity {S : Type} (draw : S → ℚ × S) (σ : S)
    (n : Int) (m : Nat) (p1 p2 : Problem) (σ1 σ2 : S) (c1 c2 : List ℝ)
    (hn : 1 ≤ n)
    (hb1 : buildProblem draw n (PyNum.int m) σ = Except.ok (p1, σ1))
    (hb2 : buildProblem draw (n + 2) (PyNum.int m) σ = Except.ok (p2, σ2))
    (ho1 : IsOptimal p1 c1) (ho2 : IsOptimal p2 c2) :
    objVal c1 ≤ objVal c2 := by
  rw [buildProblem_ok draw σ n m hn] at hb1
  rw [buildProblem_ok draw σ (n + 2) m (by omega)] at hb2
  simp only [Except.ok.injEq, Prod.mk.injEq] at hb1 hb2
  obtain ⟨hp1, -⟩ := hb1
  obtain ⟨hp2, -⟩ := hb2
  subst hp1
  subst hp2
  have hlen : c1.length = (n + 1).toNat := ho1.1.1
  have hone : 1 < c1.length := by omega
  have hlen2 : (c1 ++ zeroVec 2).length = (n + 2 + 1).toNat := by
    simp only [List.length_append, hlen, zeroVec, List.length_replicate]
    omega
  have hobj : objVal (c1 ++ zeroVec 2) = objVal c1 := by
    unfold objVal
    rw [List.getD_append _ _ _ _ hone]
  have hstep : objVal (c1 ++ zeroVec 2) ≤ objVal c2 := by
    apply ho2.2
    refine ⟨hlen2, ?_⟩
    intro con hcon
    have hc := ho1.1.2 con hcon
    cases con with
    | lo x => simpa [csat, pol_calc_append_zeroVec] using hc
    | hi x => simpa [csat, pol_calc_append_zeroVec] using hc
  rw [← hobj]
  exact hstep

/-- Witness for C7: degree `1` versus degree `3` on the four-point sample
`1/2, -1/2, 1, -1`; the optimum rises from `1` to `3`. -/
theorem C7_degree_monotonicity_witness :
    objVal [(0 : ℝ), 1] ≤ objVal [(0 : ℝ), 3, 0, -4] :=
  C7_degree_monotonicity drawC 0 1 4 probLarge probCubic 4 4
    [0, 1] [0, 3, 0, -4] (by omega) rfl rfl optLarge optCubic

/-! ### Determinism across processes, state sharing within a process -/

/-- C8: a fresh process run is a pure function of the fixed seed `1234` and
the call arguments — the embedding gives a run no other inputs — so two
process runs with the same generator, solver, seed and arguments are
bit-identical: same drawn sample sequence, same returned value, same printed
output. -/
theorem C8_process_determinism {S : Type} (solver : Problem → SolverResult)
    (draw : S → ℚ × S) (seedFn : Nat → S) (n : Int) (m : PyNum)
    (verbose : Bool) :
    (twoProcessRuns solver draw seedFn n m verbose).1
      = (twoProcessRuns solver draw seedFn n m verbose).2 ∧
    ∀ k : Nat, callSamples draw k (seedFn 1234)
      = callSamples draw k (seedFn 1234) :=
  ⟨rfl, fun _ => rfl⟩

lemma constr_lists_injective (xs ys : List ℚ)
    (h : xs.map Constr.lo ++ xs.map Constr.hi
      = ys.map Constr.lo ++ ys.map Constr.hi)
    (hlen : xs.length = ys.length) : xs = ys := by
  have hl : (xs.map Constr.lo).length = (ys.map Constr.lo).length := by
    simp [hlen]
  have := (List.append_inj h hl).1
  have hinj : Function.Injective Constr.lo := fun a b hab => by
    cases hab
    rfl
  exact List.map_injective_iff.mpr hinj this

/-- C10: the generator is seeded once per process, so the second of two
successive identical calls starts from the state the first call left behind
rather than from a reseeded state; it therefore draws the continuation of
the sample stream, and — whenever the stream does not repeat itself over the
`2*m` values involved, as a real generator's does not — the two calls see
different sample sequences and build different constraint lists. -/
theorem C10_shared_generator_state {S : Type}
    (solver : Problem → SolverResult) (draw : S → ℚ × S) (seedFn : Nat → S)
    (n : Int) (m : Nat) (verbose : Bool) (hn : 1 ≤ n)
    (hrep : callSamples draw m ((drawN draw m (seedFn 1234)).2)
      ≠ callSamples draw m (seedFn 1234)) :
    ∃ (p1 p2 : Problem) (r1 r2 : (PyVal × List Out) × S),
      twoCallsInProcess solver draw seedFn n (PyNum.int m) verbose
        = (Except.ok r1, some (Except.ok r2)) ∧
      r1.2 = (drawN draw m (seedFn 1234)).2 ∧
      buildProblem draw n (PyNum.int m) (seedFn 1234)
        = Except.ok (p1, r1.2) ∧
      buildProblem draw n (PyNum.int m) r1.2 = Except.ok (p2, r2.2) ∧
      p1.constrs = (callSamples draw m (seedFn 1234)).map Constr.lo
        ++ (callSamples draw m (seedFn 1234)).map Constr.hi ∧
      p2.constrs = (callSamples draw m r1.2).map Constr.lo
        ++ (callSamples draw m r1.2).map Constr.hi ∧
      p2.constrs ≠ p1.constrs := by
  have hb1 := buildProblem_ok draw (seedFn 1234) n m hn
  have hb2 := buildProblem_ok draw (drawN draw m (seedFn 1234)).2 n m hn
  set σ0 := seedFn 1234 with hσ0
  set σ1 := (drawN draw m σ0).2 with hσ1
  set p1 := (⟨(n + 1).toNat, 1, (drawN draw m σ0).1.map Constr.lo
    ++ (drawN draw m σ0).1.map Constr.hi⟩ : Problem) with hp1
  set p2 := (⟨(n + 1).toNat, 1, (drawN draw m σ1).1.map Constr.lo
    ++ (drawN draw m σ1).1.map Constr.hi⟩ : Problem) with hp2
  have hs1 : solve_degree_n solver draw n (PyNum.int m) verbose σ0
      = Except.ok ((retOf (solver p1),
        if verbose then [Out.status (statusOf (solver p1)),
          Out.value (valueOf (solver p1))] else []), σ1) := by
    rw [solve_degree_n, hb1]
    rfl
  have hs2 : solve_degree_n solver draw n (PyNum.int m) verbose σ1
      = Except.ok ((retOf (solver p2),
        if verbose then [Out.status (statusOf (solver p2)),
          Out.value (valueOf (solver p2))] else []),
        (drawN draw m σ1).2) := by
    rw [solve_degree_n, hb2]
    rfl
  refine ⟨p1, p2,
    ((retOf (solver p1),
      if verbose then [Out.status (statusOf (solver p1)),
        Out.value (valueOf (solver p1))] else []), σ1),
    ((retOf (solver p2),
      if verbose then [Out.status (statusOf (solver p2)),
        Out.value (valueOf (solver p2))] else []), (drawN draw m σ1).2),
    ?_, rfl, hb1, hb2, rfl, rfl, ?_⟩
  · rw [twoCallsInProcess, hs1]
    change (_, some (solve_degree_n solver draw n (PyNum.int (m : Int))
      verbose σ1)) = _
    rw [hs2]
  · intro heq
    exact hrep (constr_lists_injective _ _ heq
      (by simp [callSamples, drawN_length]))

/-- Witness for C10: the counting generator seeded at `1234`; the first call
consumes `1234, 1235`, the second call consumes `1236, 1237`. -/
theorem C10_shared_generator_state_witness :
    ∃ (p1 p2 : Problem) (r1 r2 : (PyVal × List Out) × Nat),
      twoCallsInProcess solverUnb drawCount (fun s => s) 1 (PyNum.int 2)
          false
        = (Except.ok r1, some (Except.ok r2)) ∧
      r1.2 = (drawN drawCount 2 ((fun s : Nat => s) 1234)).2 ∧
      buildProblem drawCount 1 (PyNum.int 2) ((fun s : Nat => s) 1234)
        = Except.ok (p1, r1.2) ∧
      buildProblem drawCount 1 (PyNum.int 2) r1.2
        = Except.ok (p2, r2.2) ∧
      p1.constrs
        = (callSamples drawCount 2 ((fun s : Nat => s) 1234)).map Constr.lo
          ++ (callSamples drawCount 2 ((fun s : Nat => s) 1234)).map
            Constr.hi ∧
      p2.constrs = (callSamples drawCount 2 r1.2).map Constr.lo
        ++ (callSamples drawCount 2 r1.2).map Constr.hi ∧
      p2.constrs ≠ p1.constrs :=
  C10_shared_generator_state solverUnb drawCount (fun s => s) 1 2 false
    (by omega) (by decide)
